import Mathlib

/-
  Shallow embedding of the reconciliation logic of `firmament.py`
  (canonn-science/Firmament) and proofs about it.

  Python dicts are modelled as structures with `Option` fields (`none` means
  the key is absent or the SQL column is NULL); the HTTP layer is modelled as
  a function from an id64 to its `Response`; the BulkIndex `id64_dict` is a
  function from an id64 to its presence; code that can raise an unhandled
  Python exception returns `Except String`; the database write side effects
  of `process` are modelled as an explicit trace of operations (`DBOp`), and
  the `INSERT ... ON DUPLICATE KEY UPDATE` statements as an insert-or-update
  on a store mapping keys to documents.
-/

namespace Firmament

/-- A body document from the remote dump: the `type` field read by
`count_bodies`, the `systemAddress` field written by `process`, and the rest
of the document abstracted as `raw`.  An absent field is `none`. -/
structure Body where
  type : Option String
  systemAddress : Option Int
  raw : String
deriving DecidableEq, Repr

/-- A system document (the value of the `system` key of a dump response):
`id64`, `name`, `bodyCount`, the `bodies` array, the `lenBodies` field that
`fetch_systems` adds, and the rest of the document abstracted as `raw`. -/
structure SystemDoc where
  id64 : Option Int
  name : Option String
  bodyCount : Option Int
  bodies : Option (List Body)
  lenBodies : Option Int
  raw : String
deriving DecidableEq, Repr

/-- A candidate row produced by the SQL queries: `id64` (already converted to
an integer, as `int(row.get("id64"))` does), the system name, and the stored
`len_bodies` / `body_count` columns (`none` when the column is absent from
the query or NULL). -/
structure Row where
  id64 : Int
  name : Option String
  len_bodies : Option Int
  body_count : Option Int
deriving DecidableEq, Repr

/-- An HTTP response for `GET /api/dump/id64`: the status code and the
`system` member of the parsed JSON payload (`none` when the payload has no
`system` object, in which case the Python variable `data` is `None`). -/
structure Response where
  status_code : Nat
  system : Option SystemDoc
deriving Repr

/-- Function `count_bodies` from `firmament.py`: counts the bodies whose `type` field
is `"Planet"` or `"Star"`.  A body with no `type` field gives `none`, which
matches neither, exactly as `None in ["Planet", "Star"]` is false. -/
def count_bodies (bodies : List Body) : Int :=
  bodies.foldl
    (fun bodyCount body =>
      if body.type ∈ [some "Planet", some "Star"] then bodyCount + 1
      else bodyCount)
    0

/-- The `for row in rows` loop of `fetch_systems`, over the remaining rows.
`id64_dict` is the BulkIndex (`id64_dict.get(id64)` is truthy exactly when the
id64 is present, since only `True` is ever stored); `fetch` gives the HTTP
response for an id64.  The result is the list of accepted documents together
with the list of id64s actually requested from the network, or the message of
the unhandled Python exception that aborts the run (a 200 payload whose
`system` member is missing makes `data["lenBodies"] = ...` raise; a system
with no `bodies` array makes `count_bodies(None)` raise).
Note `(data.get("bodyCount") or 0)` equals `data.bodyCount.getD 0` on integer
values because the only falsy int is `0`, and `int == None` is `False`, so
each Python `==` against a possibly-missing column is equality in
`Option Int`. -/
def fetch_loop (id64_dict : Int → Bool) (fetch : Int → Response)
    (complete : Bool) : List Row → Except String (List SystemDoc × List Int)
  | [] => Except.ok ([], [])
  | row :: rest =>
    if complete || id64_dict row.id64 then
      let response := fetch row.id64
      if response.status_code = 200 then
        match response.system with
        | none => Except.error "TypeError: NoneType does not support item assignment"
        | some sys =>
          match sys.bodies with
          | none => Except.error "TypeError: NoneType is not iterable"
          | some bodies =>
            let data := { sys with lenBodies := some (count_bodies bodies) }
            let changed : Bool :=
              ! (decide (data.lenBodies = row.len_bodies)
                  && decide (some (data.bodyCount.getD 0) = row.body_count))
            if complete || !changed then
              match fetch_loop id64_dict fetch complete rest with
              | Except.ok (systems, fetched) =>
                Except.ok (data :: systems, row.id64 :: fetched)
              | Except.error e => Except.error e
            else
              match fetch_loop id64_dict fetch complete rest with
              | Except.ok (systems, fetched) =>
                Except.ok (systems, row.id64 :: fetched)
              | Except.error e => Except.error e
      else
        match fetch_loop id64_dict fetch complete rest with
        | Except.ok (systems, fetched) =>
          Except.ok (systems, row.id64 :: fetched)
        | Except.error e => Except.error e
    else
      fetch_loop id64_dict fetch complete rest

/-- Function `fetch_systems` from `firmament.py`. -/
def fetch_systems (id64_dict : Int → Bool) (fetch : Int → Response)
    (rows : List Row) (complete : Bool) :
    Except String (List SystemDoc × List Int) :=
  fetch_loop id64_dict fetch complete rows

/-- Forgets the list of requested id64s, keeping only the accepted documents
or the exception: the observable outcome of `fetch_systems` for the caller. -/
def drop_fetched (e : Except String (List SystemDoc × List Int)) :
    Except String (List SystemDoc) :=
  match e with
  | Except.ok r => Except.ok r.1
  | Except.error msg => Except.error msg

/-- The `for data in system_data` loop of `process`: pop the `bodies` list
(default `[]`), stamp each body with the owning system's `id64` as
`systemAddress`, and collect the system rows (each without its bodies) and the
body rows.  The `if data:` guard of the source is always true here because an
accepted document is a dict holding at least the `lenBodies` key. -/
def build_values (system_data : List SystemDoc) : List SystemDoc × List Body :=
  system_data.foldl
    (fun acc data =>
      let bodies := data.bodies.getD []
      let tagged := bodies.map fun body => { body with systemAddress := data.id64 }
      (acc.1 ++ [{ data with bodies := none }], acc.2 ++ tagged))
    ([], [])

/-- A database side effect of `process`: an `executemany` upsert into
`star_systems`, an `executemany` upsert into `system_bodies`, or a
`mysql_conn.commit()`. -/
inductive DBOp where
  | insertSystems : List SystemDoc → DBOp
  | insertBodies : List Body → DBOp
  | commit : DBOp
deriving DecidableEq, Repr

/-- The database operations one iteration of the `while True` loop of
`process` performs for its accepted documents: `insert_systems` when there is
at least one system row, then `insert_bodies` followed by
`mysql_conn.commit()` when there is at least one body row — in the source the
commit sits inside the `if len(body_values) > 0` block. -/
def batch_ops (system_data : List SystemDoc) : List DBOp :=
  let sv := (build_values system_data).1
  let bv := (build_values system_data).2
  (if sv.length > 0 then [DBOp.insertSystems sv] else [])
    ++ (if bv.length > 0 then [DBOp.insertBodies bv, DBOp.commit] else [])

/-- Batching by `cursor.fetchmany(200)`: the candidate rows arrive in successive batches
of at most 200, until none remain. -/
def batches (rows : List Row) : List (List Row) :=
  List.toChunks 200 rows

/-- The `while True` loop of `process` over the remaining batches: fetch the
batch's documents (an exception aborts the run), derive the system and body
rows, emit the batch's database operations, and accumulate the `systemcount`
and `bodycount` totals. -/
def process_loop (id64_dict : Int → Bool) (fetch : Int → Response)
    (complete : Bool) : List (List Row) → Except String (List DBOp × Nat × Nat)
  | [] => Except.ok ([], 0, 0)
  | batch :: rest =>
    match fetch_systems id64_dict fetch batch complete with
    | Except.error e => Except.error e
    | Except.ok (system_data, _) =>
      match process_loop id64_dict fetch complete rest with
      | Except.error e => Except.error e
      | Except.ok (ops, systemcount, bodycount) =>
        Except.ok (batch_ops system_data ++ ops,
          (build_values system_data).1.length + systemcount,
          (build_values system_data).2.length + bodycount)

/-- Function `process` from `firmament.py`: run the batches in order, returning the
trace of database operations and the final `systemcount` / `bodycount`
totals, or the message of the exception that aborted the run. -/
def process (id64_dict : Int → Bool) (fetch : Int → Response)
    (rows : List Row) (complete : Bool) :
    Except String (List DBOp × Nat × Nat) :=
  process_loop id64_dict fetch complete (batches rows)

/-- A stored table, as a mapping from key to stored document (`none` = no row
with that key). -/
abbrev Store (κ α : Type) : Type := κ → Option α

/-- One row of `INSERT ... ON DUPLICATE KEY UPDATE raw_json =
VALUES(raw_json)`: insert the document at its key, overwriting any existing
row with that key, never deleting anything. -/
def upsert {κ α : Type} [DecidableEq κ] (key : α → κ) (s : Store κ α)
    (doc : α) : Store κ α :=
  fun k => if k = key doc then some doc else s k

/-- Execution of the upsert statement over a whole batch of documents in
order, as `cursor.executemany` does. -/
def batch_upsert {κ α : Type} [DecidableEq κ] (key : α → κ) (s : Store κ α)
    (docs : List α) : Store κ α :=
  docs.foldl (upsert key) s

/-- The key of a `star_systems` row: the system's id64. -/
def system_key (d : SystemDoc) : Option Int := d.id64

/-- The key of a `system_bodies` row: the owning system address together with
the body's own content (the natural key inside the document). -/
def body_key (b : Body) : Option Int × String := (b.systemAddress, b.raw)

/-- Function `insert_systems` from `firmament.py`, as its effect on the
`star_systems` store. -/
def insert_systems (s : Store (Option Int) SystemDoc)
    (systems : List SystemDoc) : Store (Option Int) SystemDoc :=
  batch_upsert system_key s systems

/-- Function `insert_bodies` from `firmament.py`, as its effect on the
`system_bodies` store. -/
def insert_bodies (s : Store (Option Int × String) Body)
    (bodies : List Body) : Store (Option Int × String) Body :=
  batch_upsert body_key s bodies

/- Concrete inputs used by the closed theorems below. -/

/-- A body of type Planet. -/
def bodyPlanet : Body := { type := some "Planet", systemAddress := none, raw := "b" }

/-- Five bodies that `count_bodies` counts, so `lenBodies` is computed as 5. -/
def fiveBodies : List Body := List.replicate 5 bodyPlanet

/-- A stored candidate row with `body_count = 3` and `len_bodies = 5`. -/
def rowStored : Row :=
  { id64 := 100, name := some "Col 173", len_bodies := some 5, body_count := some 3 }

/-- A BulkIndex that contains every id64. -/
def dictAll : Int → Bool := fun _ => true

/-- A BulkIndex that contains no id64. -/
def dictNone : Int → Bool := fun _ => false

/-- A fetched document whose counts equal the stored ones of `rowStored`:
`bodyCount = 3` and five counted bodies. -/
def sysSame : SystemDoc :=
  { id64 := some 100, name := some "Col 173", bodyCount := some 3,
    bodies := some fiveBodies, lenBodies := none, raw := "s" }

/-- The same document with `bodyCount = 4`, differing from the stored 3. -/
def sysChanged : SystemDoc := { sysSame with bodyCount := some 4 }

/-- A fetcher that always answers 200 with `sysSame`. -/
def fetchSame : Int → Response :=
  fun _ => { status_code := 200, system := some sysSame }

/-- A fetcher that always answers 200 with `sysChanged`. -/
def fetchChanged : Int → Response :=
  fun _ => { status_code := 200, system := some sysChanged }

/-- A candidate row with no stored counts. -/
def rowSol : Row :=
  { id64 := 1, name := some "Sol", len_bodies := none, body_count := none }

/-- A fetched document whose `bodies` array is empty. -/
def sysNoBodies : SystemDoc :=
  { id64 := some 1, name := some "Sol", bodyCount := some 0,
    bodies := some [], lenBodies := none, raw := "n" }

/-- A fetcher that always answers 200 with `sysNoBodies`. -/
def fetchNoBodies : Int → Response :=
  fun _ => { status_code := 200, system := some sysNoBodies }

/-- The system row `process` derives from `sysNoBodies`. -/
def sysSolRow : SystemDoc :=
  { id64 := some 1, name := some "Sol", bodyCount := some 0,
    bodies := none, lenBodies := some 0, raw := "n" }

/-- A fetcher that always answers 404. -/
def fetch404 : Int → Response := fun _ => { status_code := 404, system := none }

/-- A fetcher that answers 200 with a payload that has no `system` object. -/
def fetchNoSystem : Int → Response :=
  fun _ => { status_code := 200, system := none }

/-- A BulkIndex containing only the id64 7. -/
def dictOnly7 : Int → Bool := fun i => i == 7

/-- A candidate row whose id64 (3) is absent from `dictOnly7`. -/
def rowAbsent : Row :=
  { id64 := 3, name := some "A", len_bodies := some 1, body_count := some 1 }

/-- A candidate row whose id64 (7) is present in `dictOnly7`. -/
def rowPresent : Row :=
  { id64 := 7, name := some "B", len_bodies := some 1, body_count := some 1 }

/-- A `star_systems` store holding one row keyed by id64 1. -/
def storeS0 : Store (Option Int) SystemDoc :=
  fun k => if k = some 1 then some sysSolRow else none

/-- A `system_bodies` store holding one row. -/
def storeB0 : Store (Option Int × String) Body :=
  fun k => if k = (some 1, "b") then some bodyPlanet else none

/- Lemmas about count_bodies. -/

/-- Running the `count_bodies` fold from an arbitrary starting counter adds
the count of the list. -/
theorem count_bodies_shift :
    ∀ (bodies : List Body) (n : Int),
      List.foldl
        (fun bodyCount body =>
          if body.type ∈ [some "Planet", some "Star"] then bodyCount + 1
          else bodyCount) n bodies
      = n + count_bodies bodies := by
  intro bodies
  induction bodies with
  | nil => intro n; simp [count_bodies]
  | cons b bs ih =>
    intro n
    have hcons : count_bodies (b :: bs)
        = (if b.type ∈ [some "Planet", some "Star"] then (0 : Int) + 1 else 0)
            + count_bodies bs := by
      simp only [count_bodies, List.foldl_cons]
      exact ih _
    simp only [List.foldl_cons]
    rw [ih, hcons]
    by_cases hp : b.type ∈ [some "Planet", some "Star"]
    · simp [hp]
      ring
    · simp [hp]

/-- C3: `count_bodies` returns exactly the number of entries whose `type`
field equals "Planet" or "Star"; entries with any other `type`, or with no
`type` field, contribute nothing, and the empty list yields 0 (the filter of
the empty list has length 0). -/
theorem c3_count_bodies (bodies : List Body) :
    count_bodies bodies
      = ((bodies.filter fun body =>
            decide (body.type = some "Planet" ∨ body.type = some "Star")).length
          : Int) := by
  induction bodies with
  | nil => simp [count_bodies]
  | cons b bs ih =>
    have hcons : count_bodies (b :: bs)
        = (if b.type ∈ [some "Planet", some "Star"] then (0 : Int) + 1 else 0)
            + count_bodies bs := by
      simp only [count_bodies, List.foldl_cons]
      exact count_bodies_shift bs _
    have hiff : b.type ∈ [some "Planet", some "Star"]
        ↔ (b.type = some "Planet" ∨ b.type = some "Star") := by
      simp
    rw [hcons, ih]
    by_cases hp : b.type = some "Planet" ∨ b.type = some "Star"
    · rw [if_pos (hiff.mpr hp)]
      rw [List.filter_cons, if_pos (decide_eq_true hp), List.length_cons]
      push_cast
      ring
    · rw [if_neg (fun h => hp (hiff.mp h))]
      rw [List.filter_cons, if_neg (by simp [hp])]
      simp

/- Lemmas about the batched upsert. -/

/-- A batched upsert leaves every key it does not touch unchanged. -/
theorem batch_upsert_not_mem {κ α : Type} [DecidableEq κ] (key : α → κ) :
    ∀ (docs : List α) (s : Store κ α) (k : κ), k ∉ docs.map key →
      batch_upsert key s docs k = s k := by
  intro docs
  induction docs with
  | nil => intro s k _; rfl
  | cons d ds ih =>
    intro s k hk
    simp only [List.map_cons, List.mem_cons, not_or] at hk
    have h1 : batch_upsert key s (d :: ds) = batch_upsert key (upsert key s d) ds :=
      rfl
    rw [h1, ih _ _ hk.2]
    simp [upsert, hk.1]

/-- At a key some document of the batch carries, the result of a batched
upsert does not depend on the prior store. -/
theorem batch_upsert_mem_congr {κ α : Type} [DecidableEq κ] (key : α → κ) :
    ∀ (docs : List α) (s₁ s₂ : Store κ α) (k : κ), k ∈ docs.map key →
      batch_upsert key s₁ docs k = batch_upsert key s₂ docs k := by
  intro docs
  induction docs with
  | nil => intro s₁ s₂ k hk; simp at hk
  | cons d ds ih =>
    intro s₁ s₂ k hk
    have h1 : ∀ s : Store κ α,
        batch_upsert key s (d :: ds) = batch_upsert key (upsert key s d) ds :=
      fun _ => rfl
    rw [h1, h1]
    by_cases hm : k ∈ ds.map key
    · exact ih _ _ _ hm
    · have hkd : k = key d := by
        simp only [List.map_cons, List.mem_cons] at hk
        tauto
      rw [batch_upsert_not_mem key ds _ _ hm, batch_upsert_not_mem key ds _ _ hm]
      simp [upsert, hkd]

/-- Applying the same batch twice gives the same store as applying it once. -/
theorem batch_upsert_idem {κ α : Type} [DecidableEq κ] (key : α → κ)
    (s : Store κ α) (docs : List α) :
    batch_upsert key (batch_upsert key s docs) docs = batch_upsert key s docs := by
  funext k
  by_cases hm : k ∈ docs.map key
  · exact batch_upsert_mem_congr key docs _ s k hm
  · rw [batch_upsert_not_mem key docs _ _ hm]

/-- A batched upsert never empties a key that held a document. -/
theorem batch_upsert_isSome {κ α : Type} [DecidableEq κ] (key : α → κ) :
    ∀ (docs : List α) (s : Store κ α) (k : κ), (s k).isSome = true →
      (batch_upsert key s docs k).isSome = true := by
  intro docs
  induction docs with
  | nil => intro s k h; exact h
  | cons d ds ih =>
    intro s k h
    have h1 : batch_upsert key s (d :: ds) = batch_upsert key (upsert key s d) ds :=
      rfl
    rw [h1]
    apply ih
    simp only [upsert]
    by_cases hkd : k = key d <;> simp [hkd, h]

/-- C7: the batched upsert is idempotent: applying `insert_systems` and
`insert_bodies` twice with the same documents yields the same stored state as
applying them once. -/
theorem c7_upsert_idempotent (s : Store (Option Int) SystemDoc)
    (systems : List SystemDoc) (t : Store (Option Int × String) Body)
    (bodies : List Body) :
    insert_systems (insert_systems s systems) systems = insert_systems s systems
      ∧ insert_bodies (insert_bodies t bodies) bodies = insert_bodies t bodies :=
  ⟨batch_upsert_idem system_key s systems, batch_upsert_idem body_key t bodies⟩

/-- C8: the batched upsert never removes a record: every key present in the
store before `insert_systems` / `insert_bodies` run is still present
afterwards. -/
theorem c8_no_delete (s : Store (Option Int) SystemDoc) (systems : List SystemDoc)
    (t : Store (Option Int × String) Body) (bodies : List Body)
    (k : Option Int) (k' : Option Int × String)
    (hs : (s k).isSome = true) (ht : (t k').isSome = true) :
    (insert_systems s systems k).isSome = true
      ∧ (insert_bodies t bodies k').isSome = true :=
  ⟨batch_upsert_isSome system_key systems s k hs,
    batch_upsert_isSome body_key bodies t k' ht⟩

/-- Witness for C8 at a concrete store and batch. -/
theorem c8_witness :
    ((storeS0 (some 1)).isSome = true ∧ (storeB0 (some 1, "b")).isSome = true)
      ∧ (insert_systems storeS0 [sysSame] (some 1)).isSome = true
      ∧ (insert_bodies storeB0 [bodyPlanet] (some 1, "b")).isSome = true :=
  ⟨⟨by decide, by decide⟩,
    c8_no_delete storeS0 [sysSame] storeB0 [bodyPlanet] (some 1) (some 1, "b")
      (by decide) (by decide)⟩

/- Lemmas about build_values and batch_ops. -/

/-- Running the `build_values` fold from an arbitrary accumulator appends the
rows the list produces. -/
theorem build_values_go :
    ∀ (system_data : List SystemDoc) (acc : List SystemDoc × List Body),
      List.foldl
        (fun acc data =>
          let bodies := data.bodies.getD []
          let tagged := bodies.map fun body => { body with systemAddress := data.id64 }
          (acc.1 ++ [{ data with bodies := none }], acc.2 ++ tagged)) acc system_data
      = (acc.1 ++ (build_values system_data).1,
          acc.2 ++ (build_values system_data).2) := by
  intro system_data
  induction system_data with
  | nil => intro acc; simp [build_values]
  | cons d ds ih =>
    intro acc
    have hd : build_values (d :: ds)
        = ([{ d with bodies := none }] ++ (build_values ds).1,
            ((d.bodies.getD []).map fun body => { body with systemAddress := d.id64 })
              ++ (build_values ds).2) := by
      simp only [build_values, List.foldl_cons]
      rw [ih]
      simp [build_values]
    simp only [List.foldl_cons]
    rw [ih, hd]
    simp [List.append_assoc]

/-- One step of `build_values`. -/
theorem build_values_cons (d : SystemDoc) (ds : List SystemDoc) :
    build_values (d :: ds)
      = ([{ d with bodies := none }] ++ (build_values ds).1,
          ((d.bodies.getD []).map fun body => { body with systemAddress := d.id64 })
            ++ (build_values ds).2) := by
  simp only [build_values, List.foldl_cons]
  rw [build_values_go]
  simp [build_values]

/-- C10: for every accepted document of a batch, the system row is the
document with its `bodies` list removed, every body row carries
`systemAddress` equal to the owning document's `id64`, and the number of body
rows equals the total length of the `bodies` lists (defaulting to the empty
list when the field is absent). -/
theorem c10_system_and_body_rows (system_data : List SystemDoc) :
    (build_values system_data).1
        = system_data.map (fun data => { data with bodies := none })
      ∧ (build_values system_data).2
          = system_data.flatMap (fun data =>
              (data.bodies.getD []).map fun body =>
                { body with systemAddress := data.id64 })
      ∧ (build_values system_data).2.length
          = (system_data.map fun data => (data.bodies.getD []).length).sum := by
  induction system_data with
  | nil => exact ⟨rfl, rfl, rfl⟩
  | cons d ds ih =>
    obtain ⟨ih1, ih2, ih3⟩ := ih
    refine ⟨?_, ?_, ?_⟩
    · rw [build_values_cons]
      simp [ih1]
    · rw [build_values_cons]
      simp [ih2, List.flatMap_cons]
    · rw [build_values_cons]
      simp [List.length_append, List.length_map, ih3]

/-- C1 (code bug): the staleness comparison of `fetch_systems` is inverted.
With stored `(body_count = 3, len_bodies = 5)` and a fetched document whose
counts differ (`bodyCount = 4`, five counted bodies), the code discards the
document; with a fetched document whose counts are equal (`bodyCount = 3`,
five counted bodies), the code accepts it — the opposite of the claim, of the
module docstring ("If the data ... has not changed ... the script will not
attempt to update the database"), and of the printed log messages. -/
theorem c1_staleness_inverted :
    fetch_systems dictAll fetchChanged [rowStored] false = Except.ok ([], [100])
      ∧ fetch_systems dictAll fetchSame [rowStored] false
          = Except.ok ([{ sysSame with lenBodies := some 5 }], [100]) :=
  ⟨rfl, rfl⟩

/-- C2 counterexample: a run whose single batch accepts one document (the
trace reports one system row) but whose trace contains no commit at all,
because the accepted document has no bodies and the commit sits inside the
`if len(body_values) > 0` block. -/
theorem c2_counterexample :
    process dictNone fetchNoBodies [rowSol] true
        = Except.ok ([DBOp.insertSystems [sysSolRow]], 1, 0)
      ∧ DBOp.commit ∉ [DBOp.insertSystems [sysSolRow]] := by
  refine ⟨rfl, ?_⟩
  decide

/-- C2 (amended): a batch's operations end with a commit exactly when the
batch yields at least one body row; a batch whose accepted documents yield
system rows but no body rows is written without a commit. -/
theorem c2_commit_iff_bodies (system_data : List SystemDoc) :
    (batch_ops system_data).getLast? = some DBOp.commit
      ↔ (build_values system_data).2 ≠ [] := by
  simp only [batch_ops]
  by_cases hb : (build_values system_data).2.length > 0
  · have hbne : (build_values system_data).2 ≠ [] := List.length_pos.mp hb
    simp [hb, hbne, List.getLast?_append]
  · have hbe : (build_values system_data).2 = [] := by
      simpa using hb
    by_cases hs : (build_values system_data).1.length > 0 <;>
      simp [hbe, hs]

/-- C9: a malformed 200 response is fatal: a 200 payload with no `system`
object makes `fetch_systems` raise (`data` is `None`, so
`data["lenBodies"] = ...` fails) instead of skipping the row, and the
exception propagates out of `process`, aborting the run. -/
theorem c9_malformed_200_fatal :
    fetch_systems dictAll fetchNoSystem [rowSol] true
        = Except.error "TypeError: NoneType does not support item assignment"
      ∧ process dictAll fetchNoSystem [rowSol] true
          = Except.error "TypeError: NoneType does not support item assignment" :=
  ⟨rfl, rfl⟩

/- Lemmas about fetch_loop. -/

/-- In missing mode every row whose response is a 200 carrying a well-formed
system document contributes that document (with `lenBodies` set) to the
result. -/
theorem fetch_loop_complete_mem (id64_dict : Int → Bool) (fetch : Int → Response) :
    ∀ (rows : List Row) (systems : List SystemDoc) (fetched : List Int),
      fetch_loop id64_dict fetch true rows = Except.ok (systems, fetched) →
      ∀ row ∈ rows, ∀ (sys : SystemDoc) (bodies : List Body),
        (fetch row.id64).status_code = 200 →
        (fetch row.id64).system = some sys →
        sys.bodies = some bodies →
        { sys with lenBodies := some (count_bodies bodies) } ∈ systems := by
  intro rows
  induction rows with
  | nil =>
    intro systems fetched h row hrow
    simp at hrow
  | cons r rest ih =>
    intro systems fetched h row hrow sys bodies h200 hsys hbodies
    simp only [fetch_loop, Bool.true_or, eq_self_iff_true, if_true] at h
    rcases List.mem_cons.mp hrow with hr | hr
    · subst hr
      rw [if_pos h200] at h
      split at h
      · rename_i heq
        rw [hsys] at heq
        cases heq
      · rename_i sys' heq
        rw [hsys] at heq
        injection heq with heq'
        subst heq'
        split at h
        · rename_i heqb
          rw [hbodies] at heqb
          cases heqb
        · rename_i bodies' heqb
          rw [hbodies] at heqb
          injection heqb with heqb'
          subst heqb'
          split at h
          · rename_i s f heq2
            rw [Except.ok.injEq, Prod.mk.injEq] at h
            rw [← h.1]
            exact List.mem_cons_self _ _
          · exact absurd h (by simp)
    · by_cases hst : (fetch r.id64).status_code = 200
      · rw [if_pos hst] at h
        split at h
        · exact absurd h (by simp)
        · rename_i sys' heq
          split at h
          · exact absurd h (by simp)
          · rename_i bodies' heqb
            split at h
            · rename_i s f heq2
              rw [Except.ok.injEq, Prod.mk.injEq] at h
              have hmem := ih s f heq2 row hr sys bodies h200 hsys hbodies
              rw [← h.1]
              exact List.mem_cons_of_mem _ hmem
            · exact absurd h (by simp)
      · rw [if_neg hst] at h
        split at h
        · rename_i s f heq2
          rw [Except.ok.injEq, Prod.mk.injEq] at h
          have hmem := ih s f heq2 row hr sys bodies h200 hsys hbodies
          rw [← h.1]
          exact hmem
        · exact absurd h (by simp)

/-- C4: in missing mode (`complete = True`) every candidate row whose fetch
returns a 200 document is accepted: its processed document (with `lenBodies`
set) appears in the returned systems list, regardless of any stored
`body_count` / `len_bodies` values of the row and regardless of the BulkIndex
contents. -/
theorem c4_missing_mode_accepts (id64_dict : Int → Bool) (fetch : Int → Response)
    (rows : List Row) (systems : List SystemDoc) (fetched : List Int)
    (h : fetch_systems id64_dict fetch rows true = Except.ok (systems, fetched)) :
    ∀ row ∈ rows, ∀ (sys : SystemDoc) (bodies : List Body),
      (fetch row.id64).status_code = 200 →
      (fetch row.id64).system = some sys →
      sys.bodies = some bodies →
      { sys with lenBodies := some (count_bodies bodies) } ∈ systems :=
  fetch_loop_complete_mem id64_dict fetch rows systems fetched h

/-- Witness for C4: with an empty BulkIndex and a stored row whose counts
disagree with the fetched document, missing mode still accepts. -/
theorem c4_witness :
    { sysSame with lenBodies := some (count_bodies fiveBodies) }
      ∈ [{ sysSame with lenBodies := some 5 }] :=
  c4_missing_mode_accepts dictNone fetchSame [rowStored]
    [{ sysSame with lenBodies := some 5 }] [100] rfl rowStored (by decide)
    sysSame fiveBodies rfl rfl rfl

/-- In incomplete mode, rows whose id64 is absent from the BulkIndex
contribute nothing: the run is the same as the run over only the present
rows. -/
theorem fetch_loop_incomplete_filter (id64_dict : Int → Bool)
    (fetch : Int → Response) :
    ∀ rows : List Row,
      fetch_loop id64_dict fetch false rows
        = fetch_loop id64_dict fetch false
            (rows.filter fun r => id64_dict r.id64) := by
  intro rows
  induction rows with
  | nil => rfl
  | cons r rest ih =>
    by_cases hd : id64_dict r.id64 = true
    · have hf : (r :: rest).filter (fun r => id64_dict r.id64)
          = r :: rest.filter (fun r => id64_dict r.id64) := by
        simp [List.filter_cons, hd]
      rw [hf]
      simp only [fetch_loop, Bool.false_or]
      rw [if_pos hd, if_pos hd, ih]
    · have hf : (r :: rest).filter (fun r => id64_dict r.id64)
          = rest.filter (fun r => id64_dict r.id64) := by
        simp [List.filter_cons, hd]
      rw [hf]
      simp only [fetch_loop, Bool.false_or]
      rw [if_neg hd, ih]

/-- In incomplete mode, every id64 actually requested from the network is
present in the BulkIndex. -/
theorem fetch_loop_fetched_in_dict (id64_dict : Int → Bool)
    (fetch : Int → Response) :
    ∀ (rows : List Row) (systems : List SystemDoc) (fetched : List Int),
      fetch_loop id64_dict fetch false rows = Except.ok (systems, fetched) →
      ∀ i ∈ fetched, id64_dict i = true := by
  intro rows
  induction rows with
  | nil =>
    intro systems fetched h i hi
    simp only [fetch_loop, Except.ok.injEq, Prod.mk.injEq] at h
    rw [← h.2] at hi
    simp at hi
  | cons r rest ih =>
    intro systems fetched h i hi
    simp only [fetch_loop, Bool.false_or] at h
    by_cases hd : id64_dict r.id64 = true
    · rw [if_pos hd] at h
      by_cases hst : (fetch r.id64).status_code = 200
      · rw [if_pos hst] at h
        split at h
        · exact absurd h (by simp)
        · rename_i sys' heq
          split at h
          · exact absurd h (by simp)
          · rename_i bodies' heqb
            split at h
            · split at h
              · rename_i s f heq2
                rw [Except.ok.injEq, Prod.mk.injEq] at h
                rw [← h.2] at hi
                rcases List.mem_cons.mp hi with hii | hii
                · rw [hii]; exact hd
                · exact ih s f heq2 i hii
              · exact absurd h (by simp)
            · split at h
              · rename_i s f heq2
                rw [Except.ok.injEq, Prod.mk.injEq] at h
                rw [← h.2] at hi
                rcases List.mem_cons.mp hi with hii | hii
                · rw [hii]; exact hd
                · exact ih s f heq2 i hii
              · exact absurd h (by simp)
      · rw [if_neg hst] at h
        split at h
        · rename_i s f heq2
          rw [Except.ok.injEq, Prod.mk.injEq] at h
          rw [← h.2] at hi
          rcases List.mem_cons.mp hi with hii | hii
          · rw [hii]; exact hd
          · exact ih s f heq2 i hii
        · exact absurd h (by simp)
    · rw [if_neg hd] at h
      exact ih _ _ h i hi

/-- C6: in incomplete mode every candidate row whose id64 is absent from the
BulkIndex is skipped entirely: the result is unchanged if those rows are
removed, and every id64 actually fetched is present in the BulkIndex. -/
theorem c6_bulkindex_skip (id64_dict : Int → Bool) (fetch : Int → Response)
    (rows : List Row) :
    fetch_systems id64_dict fetch rows false
        = fetch_systems id64_dict fetch
            (rows.filter fun r => id64_dict r.id64) false
      ∧ ∀ (systems : List SystemDoc) (fetched : List Int),
          fetch_systems id64_dict fetch rows false = Except.ok (systems, fetched) →
          ∀ i ∈ fetched, id64_dict i = true :=
  ⟨fetch_loop_incomplete_filter id64_dict fetch rows,
    fun systems fetched h =>
      fetch_loop_fetched_in_dict id64_dict fetch rows systems fetched h⟩

/-- Witness for C6: with a BulkIndex containing only 7, a run over rows with
id64 3 and 7 requests only 7. -/
theorem c6_witness : dictOnly7 7 = true :=
  (c6_bulkindex_skip dictOnly7 fetchSame [rowAbsent, rowPresent]).2
    [] [7] rfl 7 (by decide)

/-- A row whose response is not a 200 changes nothing observable: the
documents and the raising behaviour are those of the run without the row. -/
theorem fetch_loop_non200_skip (id64_dict : Int → Bool) (fetch : Int → Response)
    (row : Row) (complete : Bool)
    (hrow : (fetch row.id64).status_code ≠ 200) :
    ∀ (pre post : List Row),
      drop_fetched (fetch_loop id64_dict fetch complete (pre ++ row :: post))
        = drop_fetched (fetch_loop id64_dict fetch complete (pre ++ post)) := by
  intro pre
  induction pre with
  | nil =>
    intro post
    simp only [List.nil_append]
    simp only [fetch_loop]
    by_cases hg : (complete || id64_dict row.id64) = true
    · rw [if_pos hg, if_neg hrow]
      cases hrec : fetch_loop id64_dict fetch complete post with
      | ok v =>
        obtain ⟨s, f⟩ := v
        rfl
      | error e => rfl
    · rw [if_neg hg]
  | cons p pre' ihp =>
    intro post
    simp only [List.cons_append]
    simp only [fetch_loop]
    have ih := ihp post
    cases hA : fetch_loop id64_dict fetch complete (pre' ++ row :: post) with
    | ok vA =>
      cases hB : fetch_loop id64_dict fetch complete (pre' ++ post) with
      | ok vB =>
        obtain ⟨sA, fA⟩ := vA
        obtain ⟨sB, fB⟩ := vB
        rw [hA, hB] at ih
        simp only [drop_fetched, Except.ok.injEq] at ih
        subst ih
        by_cases hg : (complete || id64_dict p.id64) = true
        · rw [if_pos hg, if_pos hg]
          by_cases hst : (fetch p.id64).status_code = 200
          · rw [if_pos hst, if_pos hst]
            split
            · rfl
            · split
              · rfl
              · split <;> rfl
          · rw [if_neg hst, if_neg hst]
            rfl
        · rw [if_neg hg, if_neg hg]
          rfl
      | error eB =>
        rw [hA, hB] at ih
        simp [drop_fetched] at ih
    | error eA =>
      cases hB : fetch_loop id64_dict fetch complete (pre' ++ post) with
      | ok vB =>
        rw [hA, hB] at ih
        simp [drop_fetched] at ih
      | error eB =>
        rw [hA, hB] at ih
        simp only [drop_fetched, Except.error.injEq] at ih
        subst ih
        rfl

/-- C5: a candidate row whose fetch returns a non-200 status does not raise,
is not added to the returned systems list, and the remaining rows are
processed as if the row were absent. -/
theorem c5_non200_skipped (id64_dict : Int → Bool) (fetch : Int → Response)
    (pre post : List Row) (row : Row) (complete : Bool)
    (h : (fetch row.id64).status_code ≠ 200) :
    drop_fetched (fetch_systems id64_dict fetch (pre ++ row :: post) complete)
      = drop_fetched (fetch_systems id64_dict fetch (pre ++ post) complete) :=
  fetch_loop_non200_skip id64_dict fetch row complete h pre post

/-- Witness for C5 at a concrete 404 response. -/
theorem c5_witness :
    drop_fetched
        (fetch_systems dictAll fetch404 ([rowStored] ++ rowSol :: [rowPresent]) false)
      = drop_fetched
          (fetch_systems dictAll fetch404 ([rowStored] ++ [rowPresent]) false) :=
  c5_non200_skipped dictAll fetch404 [rowStored] [rowPresent] rowSol false
    (by decide)

end Firmament
